import Mathlib

/-!
Shallow embedding of the connection-pool manager (`lib/pool.js`, here
`src/unnamed/part_000`) and of `lib/pool_config.js` of the node-mysql2
fork, together with theorems settling the frozen claims about the pool.

Queues (`denque`) are modelled as Lean lists with the front at the head:
`shift` = remove head, `push` = append at the tail, `pop` = remove the
last element, `peek` = head, `get i` = i-th element from the front.
Connection identity (JS `===` on the connection object) is modelled by a
numeric `id`; timestamps (`Date.now()`, milliseconds) are naturals.
-/

/-- A pool connection as the pool sees it: its identity, whether its
`_pool` back-reference is still set (cleared on forced removal), and its
`_lastReleased` timestamp (meaningful while idle in the extra bucket). -/
structure Conn where
  id : Nat
  pool : Bool
  lastReleased : Nat
deriving DecidableEq, Repr

/-- The pool-sizing parameters the pool reads from `this.config`
(`connectionLimit`, `minConnections`, `queueLimit`, `waitForConnections`,
`idleTimeout`). -/
structure PoolCfg where
  connectionLimit : Nat
  minConnections : Nat
  queueLimit : Nat
  waitForConnections : Bool
  idleTimeout : Nat
deriving DecidableEq, Repr

/-- Pool state: the four queues of `function Pool(options)` (part_000
lines 18-22), the `_closed` flag, and a counter supplying the identity of
the next `new PoolConnection(...)`. Waiters (`_connectionQueue`) are
stored as numeric continuation ids, front = oldest. -/
structure Pool where
  config : PoolCfg
  allConnections : List Conn
  freeConnections : List Conn
  extraConnections : List Conn
  connectionQueue : List Nat
  closed : Bool
  nextId : Nat
deriving DecidableEq, Repr

/-- The constructor `function Pool(options)`: all four queues empty,
`_closed = false`. -/
def Pool.init (cfg : PoolCfg) : Pool :=
  { config := cfg
    allConnections := []
    freeConnections := []
    extraConnections := []
    connectionQueue := []
    closed := false
    nextId := 0 }

/-- The acquisition errors `getConnection` can construct
(part_000 lines 28, 76, 84). -/
inductive PoolError where
  | poolClosed
  | noConnectionsAvailable
  | queueLimitReached
deriving DecidableEq, Repr

/-- What `Pool.prototype.getConnection(cb)` does with the continuation
`cb`, with the scheduling discipline of each branch recorded by the
constructor:
* `deferErr e` — `process.nextTick(() => cb(e))` (lines 27-29, 75-77);
* `deferConn c` — `process.nextTick(() => cb(null, c))` (lines 43-45);
* `connectNew c` — a fresh connection was registered and asynchronous
  establishment begun; `cb` fires from the I/O completion (lines 52-71);
* `syncErr e` — `cb(e)` invoked synchronously inside `getConnection`
  (line 84);
* `enqueued w` — `cb` pushed onto `_connectionQueue`, not invoked
  (line 88). -/
inductive GetOutcome where
  | deferErr (e : PoolError)
  | deferConn (c : Conn)
  | connectNew (c : Conn)
  | syncErr (e : PoolError)
  | enqueued (w : Nat)
deriving DecidableEq, Repr

/-- `Pool.prototype.getConnection` (part_000 lines 25-89). `w` is the
identity of the continuation `cb`. Returns the updated pool and the
outcome for `cb`. -/
def getConnection (p : Pool) (w : Nat) : Pool × GetOutcome :=
  if p.closed then
    (p, .deferErr .poolClosed)
  else
    match p.freeConnections with
    | c :: rest => ({ p with freeConnections := rest }, .deferConn c)
    | [] =>
      match p.extraConnections.getLast? with
      | some c =>
        ({ p with extraConnections := p.extraConnections.dropLast }, .deferConn c)
      | none =>
        if p.config.connectionLimit = 0 ∨
            p.allConnections.length < p.config.connectionLimit then
          let c : Conn := ⟨p.nextId, true, 0⟩
          ({ p with
              allConnections := p.allConnections ++ [c]
              nextId := p.nextId + 1 },
            .connectNew c)
        else if ¬ p.config.waitForConnections then
          (p, .deferErr .noConnectionsAvailable)
        else if p.config.queueLimit ≠ 0 ∧
            p.config.queueLimit ≤ p.connectionQueue.length then
          (p, .syncErr .queueLimitReached)
        else
          ({ p with connectionQueue := p.connectionQueue ++ [w] }, .enqueued w)

/-- The continuation of `connection.connect(...)` inside `getConnection`
(part_000 lines 60-70), run on I/O completion: `closed` is re-read there,
an establishment error is propagated unchanged, otherwise the connection
is delivered. `some (Sum.inl e)` = failure `e`, `some (Sum.inr c)` =
success with `c`. -/
def connectCallback (closedNow : Bool) (err : Option Nat) (c : Conn) :
    Option (Sum Nat Conn) × Option PoolError :=
  if closedNow then (none, some .poolClosed)
  else match err with
    | some e => (some (Sum.inl e), none)
    | none => (some (Sum.inr c), none)

/-- What `Pool.prototype.releaseConnection(connection)` does besides
mutating the pool:
* `redispatch w` — the connection had no `_pool` back-reference and a
  waiter was pending: `process.nextTick(this.getConnection.bind(this, cb))`
  (lines 96-100);
* `handoff w c` — `process.nextTick(cb.bind(null, null, connection))`
  for the oldest waiter (lines 101-104);
* `toExtra` / `toFree` — the connection went into an idle bucket
  (lines 105-112);
* `none` — no `_pool` back-reference and no waiter: nothing happens. -/
inductive RelOutcome where
  | redispatch (w : Nat)
  | handoff (w : Nat) (c : Conn)
  | toExtra
  | toFree
  | none
deriving DecidableEq, Repr

/-- `Pool.prototype.releaseConnection` (part_000 lines 91-113). `now` is
the value `Date.now()` would return at the call. -/
def releaseConnection (p : Pool) (c : Conn) (now : Nat) : Pool × RelOutcome :=
  if ¬ c.pool then
    match p.connectionQueue with
    | w :: rest => ({ p with connectionQueue := rest }, .redispatch w)
    | [] => (p, .none)
  else
    match p.connectionQueue with
    | w :: rest => ({ p with connectionQueue := rest }, .handoff w c)
    | [] =>
      if p.config.minConnections ≤ p.freeConnections.length then
        ({ p with
            extraConnections :=
              p.extraConnections ++ [{ c with lastReleased := now }] },
          .toExtra)
      else
        ({ p with freeConnections := p.freeConnections ++ [c] }, .toFree)

/-- The loop `for (; --len; )` of `spliceConnection` (part_000 lines
269-275), with the remaining iteration count explicit: each iteration
either shifts off a matching front element and stops, or rotates the
front element to the tail. -/
def spliceLoop (cid : Nat) : Nat → List Conn → List Conn
  | 0, q => q
  | n + 1, q =>
    match q with
    | [] => []
    | x :: xs => if x.id = cid then xs else spliceLoop cid n (xs ++ [x])

/-- `function spliceConnection(queue, connection)` (part_000 lines
263-278): if the queue is non-empty, pop when the last element is the
connection, otherwise run the rotation loop `len - 1` times. -/
def spliceConnection (q : List Conn) (cid : Nat) : List Conn :=
  match q.getLast? with
  | none => q
  | some last =>
    if last.id = cid then q.dropLast
    else spliceLoop cid (q.length - 1) q

/-- The `while` loop of `Pool.prototype._closeIdleConnections` (part_000
lines 221-231): while the front of `extraConnections` has been unused for
longer than the timeout, shift it off and destroy it; stop at the first
front element within the timeout. Returns (remaining queue, destroyed
connections in destruction order). -/
def closeIdleLoop (now timeout : Nat) : List Conn → List Conn × List Conn
  | [] => ([], [])
  | c :: rest =>
    if c.lastReleased + timeout < now then
      let r := closeIdleLoop now timeout rest
      (r.1, c :: r.2)
    else (c :: rest, [])

/-- `Pool.prototype._closeIdleConnections` (part_000 lines 218-232):
`timeout = idleTimeout * 1000` milliseconds; returns the updated pool and
the list of destroyed connections. -/
def closeIdleConnections (p : Pool) (now : Nat) : Pool × List Conn :=
  let r := closeIdleLoop now (p.config.idleTimeout * 1000) p.extraConnections
  ({ p with extraConnections := r.1 }, r.2)

/-- `Pool.prototype._removeConnection` (part_000 lines 234-249): splice
the connection out of all three buckets, then funnel it through
`releaseConnection`. (The timer bookkeeping of lines 246-248 has no
observable effect on the modelled state.) -/
def removeConnection (p : Pool) (c : Conn) (now : Nat) : Pool × RelOutcome :=
  let p1 : Pool :=
    { p with
        allConnections := spliceConnection p.allConnections c.id
        freeConnections := spliceConnection p.freeConnections c.id
        extraConnections := spliceConnection p.extraConnections c.id }
  releaseConnection p1 c now

/-- The aggregator `endCB` of `Pool.prototype.end` (part_000 lines
131-141), folded over the sequence of per-connection `_realEnd` reports
(`some e` = failure `e`, `none` = success). `n` is
`this._allConnections.length`, `calledBack` and `closedConnections` the
captured mutable variables. Returns the list of invocations of the user
completion `cb`, in order. -/
def endAggregate (n : Nat) : List (Option Nat) → Bool → Nat → List (Option Nat)
  | [], _, _ => []
  | e :: rest, calledBack, closedConnections =>
    if calledBack then endAggregate n rest calledBack closedConnections
    else
      match e with
      | some err => some err :: endAggregate n rest true closedConnections
      | none =>
        if n ≤ closedConnections + 1 then
          Option.none :: endAggregate n rest true (closedConnections + 1)
        else endAggregate n rest false (closedConnections + 1)

/-- `Pool.prototype.end` (part_000 lines 115-152): sets `_closed`, and if
`allConnections` is empty invokes `endCB()` once immediately; otherwise
`_realEnd(endCB)` is issued to every tracked connection and `reports` is
the sequence of their completions, one per connection, in completion
order. Returns (updated pool, connections asked to end, invocations of
the completion `cb`). -/
def poolEnd (p : Pool) (reports : List (Option Nat)) :
    Pool × List Conn × List (Option Nat) :=
  let p' := { p with closed := true }
  if p.allConnections.length = 0 then (p', [], [Option.none])
  else (p', p.allConnections, endAggregate p.allConnections.length reports false 0)

/-- The pool operations that mutate the modelled state, used to define
reachability. `get` = `getConnection`, `release` = `releaseConnection`,
`remove` = `_removeConnection`, `sweep` = one `_closeIdleConnections`
timer tick, `finish` = `end`. -/
inductive Op where
  | get (w : Nat)
  | release (c : Conn) (now : Nat)
  | remove (c : Conn) (now : Nat)
  | sweep (now : Nat)
  | finish (reports : List (Option Nat))
deriving DecidableEq, Repr

/-- One operation's effect on the pool state. -/
def stepPool (p : Pool) : Op → Pool
  | .get w => (getConnection p w).1
  | .release c now => (releaseConnection p c now).1
  | .remove c now => (removeConnection p c now).1
  | .sweep now => (closeIdleConnections p now).1
  | .finish reports => (poolEnd p reports).1

/-- Running a sequence of operations from a state. -/
def runPool (p : Pool) (ops : List Op) : Pool :=
  ops.foldl stepPool p

/-- The recognized pool-sizing options of `lib/pool_config.js`, each
absent (`none`, JS `null`/`undefined`) or given as a number
(already coerced by `Number(...)` / `Boolean(...)`). -/
structure PoolOptions where
  waitForConnections : Option Bool
  connectionLimit : Option Int
  queueLimit : Option Int
  minConnections : Option Int
  idleTimeout : Option Int
deriving DecidableEq, Repr

/-- The computed pool-sizing fields of a `PoolConfig`. -/
structure PoolConfigFields where
  waitForConnections : Bool
  connectionLimit : Int
  queueLimit : Int
  minConnections : Int
  idleTimeout : Int
deriving DecidableEq, Repr

/-- `function PoolConfig(options)` (lib/pool_config.js lines 4-26),
restricted to the pool-sizing fields (the nested `ConnectionConfig` and
the connection-string parse are external collaborators). -/
def PoolConfigMake (options : PoolOptions) : PoolConfigFields :=
  { waitForConnections :=
      match options.waitForConnections with
      | Option.none => true
      | some b => b
    connectionLimit :=
      match options.connectionLimit with
      | Option.none => 10
      | some n => n
    queueLimit :=
      match options.queueLimit with
      | Option.none => 0
      | some n => n
    minConnections :=
      min
        (match options.connectionLimit with
          | Option.none => 10
          | some n => n)
        (match options.minConnections with
          | Option.none =>
            match options.connectionLimit with
            | Option.none => 10
            | some n => n
          | some n => n)
    idleTimeout :=
      max 15
        (match options.idleTimeout with
          | Option.none => 300
          | some n => n) }

/-- `true` iff the list is sorted ascending by `lastReleased` (the
ordering `_closeIdleConnections` relies on: "First will always be
oldest", part_000 line 229). -/
def sortedByRelease : List Conn → Bool
  | [] => true
  | [_] => true
  | a :: b :: rest => a.lastReleased ≤ b.lastReleased && sortedByRelease (b :: rest)

/-- Number of invocations of the continuation `cb` implied by a
`getConnection` outcome (the enqueue path leaves `cb` pending). -/
def cbDeliveries : GetOutcome → Nat
  | .enqueued _ => 0
  | _ => 1

/-- C1: on an open pool with at least one idle connection, `getConnection`
resolves the continuation on the next tick with exactly the front of
`freeConnections` when that bucket is non-empty, otherwise with the back
of `extraConnections`; and a new connection is created only when both
idle buckets are empty. -/
theorem getConnection_idle_spec (p : Pool) (w : Nat)
    (hopen : p.closed = false) :
    (∀ c rest, p.freeConnections = c :: rest →
      getConnection p w = ({ p with freeConnections := rest }, .deferConn c)) ∧
    (p.freeConnections = [] → ∀ c,
      p.extraConnections.getLast? = some c →
      getConnection p w =
        ({ p with extraConnections := p.extraConnections.dropLast },
          .deferConn c)) ∧
    (∀ c, (getConnection p w).2 = .connectNew c →
      p.freeConnections = [] ∧ p.extraConnections = []) := by
  refine ⟨?_, ?_, ?_⟩
  · intro c rest hf
    simp [getConnection, hopen, hf]
  · intro hf c he
    simp [getConnection, hopen, hf, he]
  · intro c hc
    unfold getConnection at hc
    rw [hopen] at hc
    simp only [Bool.false_eq_true, if_false] at hc
    cases hf : p.freeConnections with
    | cons a rest => rw [hf] at hc; simp at hc
    | nil =>
      rw [hf] at hc
      cases he : p.extraConnections.getLast? with
      | some a => rw [he] at hc; simp at hc
      | none =>
        exact ⟨rfl, List.getLast?_eq_none_iff.mp he⟩

/-- Witness for `getConnection_idle_spec` at a concrete open pool with one
free and one extra idle connection. -/
def poolW1 : Pool :=
  { config := ⟨10, 10, 0, true, 300⟩
    allConnections := [⟨0, true, 0⟩, ⟨1, true, 0⟩]
    freeConnections := [⟨0, true, 0⟩]
    extraConnections := [⟨1, true, 50⟩]
    connectionQueue := []
    closed := false
    nextId := 2 }

theorem getConnection_idle_spec_witness :
    poolW1.closed = false ∧
    ((∀ c rest, poolW1.freeConnections = c :: rest →
      getConnection poolW1 3 =
        ({ poolW1 with freeConnections := rest }, .deferConn c)) ∧
    (poolW1.freeConnections = [] → ∀ c,
      poolW1.extraConnections.getLast? = some c →
      getConnection poolW1 3 =
        ({ poolW1 with extraConnections := poolW1.extraConnections.dropLast },
          .deferConn c)) ∧
    (∀ c, (getConnection poolW1 3).2 = .connectNew c →
      poolW1.freeConnections = [] ∧ poolW1.extraConnections = [])) :=
  ⟨rfl, getConnection_idle_spec poolW1 3 rfl⟩

/-- C3: releasing a connection that still references the pool hands it,
when a waiter is pending, to the oldest waiter on the next tick without
touching either idle bucket; with no waiter it is appended to the tail of
`extraConnections` stamped with the current time when
`|freeConnections| ≥ minConnections`, and otherwise appended to
`freeConnections` unchanged. -/
theorem releaseConnection_spec (p : Pool) (c : Conn) (now : Nat)
    (hpool : c.pool = true) :
    (∀ w rest, p.connectionQueue = w :: rest →
      releaseConnection p c now =
        ({ p with connectionQueue := rest }, .handoff w c)) ∧
    (p.connectionQueue = [] →
      (p.config.minConnections ≤ p.freeConnections.length →
        releaseConnection p c now =
          ({ p with
              extraConnections :=
                p.extraConnections ++ [{ c with lastReleased := now }] },
            .toExtra)) ∧
      (p.freeConnections.length < p.config.minConnections →
        releaseConnection p c now =
          ({ p with freeConnections := p.freeConnections ++ [c] },
            .toFree))) := by
  constructor
  · intro w rest hq
    simp [releaseConnection, hpool, hq]
  · intro hq
    constructor
    · intro hmin
      simp [releaseConnection, hpool, hq, hmin]
    · intro hlt
      simp [releaseConnection, hpool, hq, Nat.not_le.mpr hlt]

/-- Witness state for the release theorems: one waiter queued. -/
def poolW3 : Pool :=
  { config := ⟨2, 1, 0, true, 300⟩
    allConnections := [⟨0, true, 0⟩, ⟨1, true, 0⟩]
    freeConnections := []
    extraConnections := []
    connectionQueue := [7]
    closed := false
    nextId := 2 }

theorem releaseConnection_spec_witness :
    (⟨0, true, 0⟩ : Conn).pool = true ∧
    ((∀ w rest, poolW3.connectionQueue = w :: rest →
      releaseConnection poolW3 ⟨0, true, 0⟩ 99 =
        ({ poolW3 with connectionQueue := rest }, .handoff w ⟨0, true, 0⟩)) ∧
    (poolW3.connectionQueue = [] →
      (poolW3.config.minConnections ≤ poolW3.freeConnections.length →
        releaseConnection poolW3 ⟨0, true, 0⟩ 99 =
          ({ poolW3 with
              extraConnections :=
                poolW3.extraConnections ++
                  [{ (⟨0, true, 0⟩ : Conn) with lastReleased := 99 }] },
            .toExtra)) ∧
      (poolW3.freeConnections.length < poolW3.config.minConnections →
        releaseConnection poolW3 ⟨0, true, 0⟩ 99 =
          ({ poolW3 with
              freeConnections := poolW3.freeConnections ++ [⟨0, true, 0⟩] },
            .toFree)))) :=
  ⟨rfl, releaseConnection_spec poolW3 ⟨0, true, 0⟩ 99 rfl⟩

/-- C10: `releaseConnection` never reads the `closed` flag — on a closed
pool it behaves exactly as on the open pool, so with no waiter pending a
released connection is retained in an idle bucket of the closed pool; and
`getConnection` is the operation gated on `closed`. -/
theorem releaseConnection_ignores_closed (p : Pool) (c : Conn) (now : Nat)
    (b : Bool) :
    ((releaseConnection { p with closed := b } c now).1 =
      { (releaseConnection p c now).1 with closed := b } ∧
     (releaseConnection { p with closed := b } c now).2 =
      (releaseConnection p c now).2) ∧
    (releaseConnection p c now).1.closed = p.closed ∧
    (p.closed = true → p.connectionQueue = [] → c.pool = true →
      (releaseConnection p c now).1.closed = true ∧
      ((releaseConnection p c now).1.freeConnections =
          p.freeConnections ++ [c] ∧
        (releaseConnection p c now).2 = .toFree ∨
       (releaseConnection p c now).1.extraConnections =
          p.extraConnections ++ [{ c with lastReleased := now }] ∧
        (releaseConnection p c now).2 = .toExtra)) ∧
    (p.closed = true → ∀ w,
      getConnection p w = (p, .deferErr .poolClosed)) := by
  refine ⟨?_, ?_, ?_, ?_⟩
  · unfold releaseConnection
    cases hc : c.pool <;>
      cases hq : p.connectionQueue <;>
        simp_all <;> split <;> simp
  · unfold releaseConnection
    cases hc : c.pool <;>
      cases hq : p.connectionQueue <;>
        simp_all <;> split <;> simp
  · intro hclosed hq hpool
    unfold releaseConnection
    simp only [hpool, hq]
    split
    · simp_all
    · refine ⟨by split <;> simp [hclosed], ?_⟩
      split
      · right; simp
      · left; simp
  · intro hclosed w
    simp [getConnection, hclosed]

/-- Witness for `releaseConnection_ignores_closed` at a closed pool with
an empty waiter queue. -/
def poolW10 : Pool :=
  { config := ⟨2, 0, 0, true, 300⟩
    allConnections := [⟨0, true, 0⟩]
    freeConnections := []
    extraConnections := []
    connectionQueue := []
    closed := true
    nextId := 1 }

theorem releaseConnection_ignores_closed_witness :
    poolW10.closed = true ∧ poolW10.connectionQueue = [] ∧
    (⟨0, true, 0⟩ : Conn).pool = true ∧
    (((releaseConnection { poolW10 with closed := false } ⟨0, true, 0⟩ 5).1 =
      { (releaseConnection poolW10 ⟨0, true, 0⟩ 5).1 with closed := false } ∧
     (releaseConnection { poolW10 with closed := false } ⟨0, true, 0⟩ 5).2 =
      (releaseConnection poolW10 ⟨0, true, 0⟩ 5).2) ∧
    (releaseConnection poolW10 ⟨0, true, 0⟩ 5).1.closed = poolW10.closed ∧
    (poolW10.closed = true → poolW10.connectionQueue = [] →
      (⟨0, true, 0⟩ : Conn).pool = true →
      (releaseConnection poolW10 ⟨0, true, 0⟩ 5).1.closed = true ∧
      ((releaseConnection poolW10 ⟨0, true, 0⟩ 5).1.freeConnections =
          poolW10.freeConnections ++ [⟨0, true, 0⟩] ∧
        (releaseConnection poolW10 ⟨0, true, 0⟩ 5).2 = .toFree ∨
       (releaseConnection poolW10 ⟨0, true, 0⟩ 5).1.extraConnections =
          poolW10.extraConnections ++
            [{ (⟨0, true, 0⟩ : Conn) with lastReleased := 5 }] ∧
        (releaseConnection poolW10 ⟨0, true, 0⟩ 5).2 = .toExtra)) ∧
    (poolW10.closed = true → ∀ w,
      getConnection poolW10 w = (poolW10, .deferErr .poolClosed))) :=
  ⟨rfl, rfl, rfl, releaseConnection_ignores_closed poolW10 ⟨0, true, 0⟩ 5 false⟩

/-- C2: every failing `getConnection` delivers the failure to `cb`
exactly once; the synchronously-delivered failure is exactly
`QueueLimitReached` (every other failure path defers `cb` to the next
tick or to an I/O completion), and at a saturated pool with
`queueLimit = Q > 0` a request enqueues while fewer than `Q` waiters are
queued and fails synchronously with `QueueLimitReached` once `Q` waiters
are queued — so the `(Q+1)`-th attempt fails synchronously. -/
theorem getConnection_failure_timing (p : Pool) (w : Nat) :
    (∀ e, (getConnection p w).2 = .syncErr e ∨ (getConnection p w).2 = .deferErr e →
      cbDeliveries (getConnection p w).2 = 1) ∧
    (∀ e, (getConnection p w).2 = .syncErr e → e = .queueLimitReached) ∧
    (∀ e, (getConnection p w).2 = .deferErr e →
      e = .poolClosed ∨ e = .noConnectionsAvailable) ∧
    (p.closed = false → p.freeConnections = [] → p.extraConnections = [] →
      p.config.connectionLimit ≠ 0 →
      p.config.connectionLimit ≤ p.allConnections.length →
      p.config.waitForConnections = true → p.config.queueLimit ≠ 0 →
      (p.connectionQueue.length < p.config.queueLimit →
        getConnection p w =
          ({ p with connectionQueue := p.connectionQueue ++ [w] },
            .enqueued w)) ∧
      (p.config.queueLimit ≤ p.connectionQueue.length →
        getConnection p w = (p, .syncErr .queueLimitReached))) := by
  refine ⟨?_, ?_, ?_, ?_⟩
  · intro e he
    rcases he with he | he <;> rw [he] <;> rfl
  · intro e he
    unfold getConnection at he
    repeat' split at he
    all_goals simp_all
  · intro e he
    unfold getConnection at he
    repeat' split at he
    all_goals simp_all
  · intro hopen hf hex hlim hge hwait hql
    have hex' : p.extraConnections.getLast? = Option.none := by
      rw [List.getLast?_eq_none_iff]; exact hex
    have hnot : ¬ (p.config.connectionLimit = 0 ∨
        p.allConnections.length < p.config.connectionLimit) := by
      push_neg; exact ⟨hlim, hge⟩
    constructor
    · intro hlt
      simp [getConnection, hopen, hf, hex', hnot, hwait, hql,
        Nat.not_le.mpr hlt]
    · intro hle
      simp [getConnection, hopen, hf, hex', hnot, hwait, hql, hle]

/-- Witness state for the queue-limit boundary: saturated pool with
`queueLimit = 1` and one waiter already queued. -/
def poolW2 : Pool :=
  { config := ⟨1, 1, 1, true, 300⟩
    allConnections := [⟨0, true, 0⟩]
    freeConnections := []
    extraConnections := []
    connectionQueue := [4]
    closed := false
    nextId := 1 }

theorem getConnection_failure_timing_witness :
    ((∀ e, (getConnection poolW2 5).2 = .syncErr e ∨
        (getConnection poolW2 5).2 = .deferErr e →
      cbDeliveries (getConnection poolW2 5).2 = 1) ∧
    (∀ e, (getConnection poolW2 5).2 = .syncErr e → e = .queueLimitReached) ∧
    (∀ e, (getConnection poolW2 5).2 = .deferErr e →
      e = .poolClosed ∨ e = .noConnectionsAvailable) ∧
    (poolW2.closed = false → poolW2.freeConnections = [] →
      poolW2.extraConnections = [] →
      poolW2.config.connectionLimit ≠ 0 →
      poolW2.config.connectionLimit ≤ poolW2.allConnections.length →
      poolW2.config.waitForConnections = true →
      poolW2.config.queueLimit ≠ 0 →
      (poolW2.connectionQueue.length < poolW2.config.queueLimit →
        getConnection poolW2 5 =
          ({ poolW2 with connectionQueue := poolW2.connectionQueue ++ [5] },
            .enqueued 5)) ∧
      (poolW2.config.queueLimit ≤ poolW2.connectionQueue.length →
        getConnection poolW2 5 = (poolW2, .syncErr .queueLimitReached)))) ∧
    getConnection poolW2 5 = (poolW2, .syncErr .queueLimitReached) :=
  ⟨getConnection_failure_timing poolW2 5,
    ((getConnection_failure_timing poolW2 5).2.2.2 rfl rfl rfl
      (by decide) (by decide) rfl (by decide)).2 (by decide)⟩

/-- The eviction loop removes exactly the longest expired prefix: it
returns the `dropWhile` of the expiry test as the remaining queue and its
`takeWhile` as the destroyed connections. -/
theorem closeIdleLoop_eq (now t : Nat) (l : List Conn) :
    closeIdleLoop now t l =
      (l.dropWhile (fun c => decide (c.lastReleased + t < now)),
       l.takeWhile (fun c => decide (c.lastReleased + t < now))) := by
  induction l with
  | nil => rfl
  | cons c rest ih =>
    by_cases h : c.lastReleased + t < now
    · simp [closeIdleLoop, h, List.dropWhile, List.takeWhile, ih]
    · simp [closeIdleLoop, h, List.dropWhile, List.takeWhile]

/-- C6: one idle-eviction tick destroys exactly the maximal prefix of
`extraConnections` whose age strictly exceeds `idleTimeout` seconds
(timestamps in milliseconds: the front element is expired iff
`lastReleased + idleTimeout * 1000 < now`), keeps exactly the rest —
the first unexpired front element and everything after it untouched —
and leaves every other pool field unchanged. -/
theorem closeIdleConnections_spec (p : Pool) (now : Nat) :
    (closeIdleConnections p now).2 =
      p.extraConnections.takeWhile
        (fun c => decide (c.lastReleased + p.config.idleTimeout * 1000 < now)) ∧
    (closeIdleConnections p now).1.extraConnections =
      p.extraConnections.dropWhile
        (fun c => decide (c.lastReleased + p.config.idleTimeout * 1000 < now)) ∧
    (closeIdleConnections p now).1 =
      { p with
          extraConnections :=
            p.extraConnections.dropWhile
              (fun c =>
                decide (c.lastReleased + p.config.idleTimeout * 1000 < now)) } ∧
    (∀ c : Conn, (c.lastReleased + p.config.idleTimeout * 1000 < now ↔
      p.config.idleTimeout * 1000 < now - c.lastReleased)) := by
  refine ⟨?_, ?_, ?_, fun c => by omega⟩ <;>
    simp [closeIdleConnections, closeIdleLoop_eq]

/-- Once `calledBack` is set, the aggregator never invokes the completion
again, whatever reports still arrive. -/
theorem endAggregate_calledBack (n : Nat) (reports : List (Option Nat))
    (k : Nat) : endAggregate n reports true k = [] := by
  induction reports generalizing k with
  | nil => rfl
  | cons e rest ih => simp [endAggregate, ih]

/-- Aggregator characterization: starting from `closedConnections = k`
with `k < n` and exactly `n - k` reports still to arrive, the completion
is invoked exactly once, with the first reported error if one arrives and
with no error after all successes. -/
theorem endAggregate_eq (n : Nat) (reports : List (Option Nat)) (k : Nat)
    (hk : k < n) (hlen : reports.length = n - k) :
    endAggregate n reports false k =
      [(reports.find? (fun e => e.isSome)).join] := by
  induction reports generalizing k with
  | nil => simp at hlen; omega
  | cons e rest ih =>
    cases e with
    | some err =>
      simp [endAggregate, List.find?, endAggregate_calledBack]
    | none =>
      by_cases h : n ≤ k + 1
      · have hn : n = k + 1 := by omega
        rw [List.length_cons] at hlen
        have hrl : rest.length = 0 := by omega
        have hrest : rest = [] := List.eq_nil_of_length_eq_zero hrl
        subst hrest
        simp [endAggregate, h, List.find?]
      · have hk' : k + 1 < n := by omega
        have hlen' : rest.length = n - (k + 1) := by
          rw [List.length_cons] at hlen; omega
        simp [endAggregate, h, List.find?, ih (k + 1) hk' hlen']

/-- C7: `end` marks the pool closed and invokes the user completion
exactly once. With no tracked connections it is invoked immediately with
no error and no graceful-end request is issued; otherwise a graceful-end
request is issued to every tracked connection, and given one completion
report per connection the single invocation carries the first reported
error when any end fails (later reports are dropped) and no error once
every connection has reported success. -/
theorem poolEnd_spec (p : Pool) (reports : List (Option Nat))
    (hlen : reports.length = p.allConnections.length) :
    (poolEnd p reports).1 = { p with closed := true } ∧
    (p.allConnections = [] →
      (poolEnd p reports).2.1 = [] ∧
      (poolEnd p reports).2.2 = [Option.none]) ∧
    (p.allConnections ≠ [] →
      (poolEnd p reports).2.1 = p.allConnections ∧
      (poolEnd p reports).2.2 =
        [(reports.find? (fun e => e.isSome)).join]) ∧
    (poolEnd p reports).2.2.length = 1 := by
  refine ⟨?_, ?_, ?_, ?_⟩
  · unfold poolEnd
    split <;> rfl
  · intro hnil
    simp [poolEnd, hnil]
  · intro hne
    have hpos : 0 < p.allConnections.length := List.length_pos.mpr hne
    have hlen0 : ¬ p.allConnections.length = 0 := by omega
    refine ⟨by simp [poolEnd, hlen0], ?_⟩
    simp only [poolEnd, hlen0, if_false]
    exact endAggregate_eq p.allConnections.length reports 0 hpos (by omega)
  · by_cases hnil : p.allConnections = []
    · simp [poolEnd, hnil]
    · have hpos : 0 < p.allConnections.length := List.length_pos.mpr hnil
      have hlen0 : ¬ p.allConnections.length = 0 := by omega
      simp only [poolEnd, hlen0, if_false]
      rw [endAggregate_eq p.allConnections.length reports 0 hpos (by omega)]
      rfl

/-- Witness state for `poolEnd_spec`: two connections, the second of
which fails its graceful end with error code 7. -/
def poolW7 : Pool :=
  { config := ⟨10, 10, 0, true, 300⟩
    allConnections := [⟨0, true, 0⟩, ⟨1, true, 0⟩]
    freeConnections := [⟨0, true, 0⟩]
    extraConnections := []
    connectionQueue := []
    closed := false
    nextId := 2 }

theorem poolEnd_spec_witness :
    [Option.none, some 7].length = poolW7.allConnections.length ∧
    ((poolEnd poolW7 [Option.none, some 7]).1 =
        { poolW7 with closed := true } ∧
    (poolW7.allConnections = [] →
      (poolEnd poolW7 [Option.none, some 7]).2.1 = [] ∧
      (poolEnd poolW7 [Option.none, some 7]).2.2 = [Option.none]) ∧
    (poolW7.allConnections ≠ [] →
      (poolEnd poolW7 [Option.none, some 7]).2.1 = poolW7.allConnections ∧
      (poolEnd poolW7 [Option.none, some 7]).2.2 =
        [(([Option.none, some 7] : List (Option Nat)).find?
            (fun e => e.isSome)).join]) ∧
    (poolEnd poolW7 [Option.none, some 7]).2.2.length = 1) :=
  ⟨rfl, poolEnd_spec poolW7 [Option.none, some 7] rfl⟩

/-- The rotation loop never lengthens the queue. -/
theorem spliceLoop_length_le (cid n : Nat) (q : List Conn) :
    (spliceLoop cid n q).length ≤ q.length := by
  induction n generalizing q with
  | zero => simp [spliceLoop]
  | succ n ih =>
    cases q with
    | nil => simp [spliceLoop]
    | cons x xs =>
      simp only [spliceLoop]
      split
      · simp
      · exact le_trans (ih (xs ++ [x])) (by simp)

/-- `spliceConnection` never lengthens the queue. -/
theorem spliceConnection_length_le (q : List Conn) (cid : Nat) :
    (spliceConnection q cid).length ≤ q.length := by
  unfold spliceConnection
  cases h : q.getLast? with
  | none => simp
  | some last =>
    change (if last.id = cid then q.dropLast
      else spliceLoop cid (q.length - 1) q).length ≤ q.length
    by_cases hid : last.id = cid
    · rw [if_pos hid, List.length_dropLast]
      omega
    · rw [if_neg hid]
      exact spliceLoop_length_le cid (q.length - 1) q

/-- `getConnection` leaves the config untouched. -/
theorem getConnection_config (p : Pool) (w : Nat) :
    (getConnection p w).1.config = p.config := by
  unfold getConnection
  repeat' split
  all_goals rfl

/-- `releaseConnection` leaves the config untouched. -/
theorem releaseConnection_config (p : Pool) (c : Conn) (now : Nat) :
    (releaseConnection p c now).1.config = p.config := by
  unfold releaseConnection
  repeat' split
  all_goals rfl

/-- `releaseConnection` never touches `allConnections`. -/
theorem releaseConnection_all (p : Pool) (c : Conn) (now : Nat) :
    (releaseConnection p c now).1.allConnections = p.allConnections := by
  unfold releaseConnection
  repeat' split
  all_goals rfl

/-- `poolEnd` never touches `allConnections`. -/
theorem poolEnd_all (p : Pool) (reports : List (Option Nat)) :
    (poolEnd p reports).1.allConnections = p.allConnections := by
  unfold poolEnd
  split <;> rfl

/-- Every operation leaves the config untouched. -/
theorem stepPool_config (p : Pool) (op : Op) :
    (stepPool p op).config = p.config := by
  cases op with
  | get w => exact getConnection_config p w
  | release c now => exact releaseConnection_config p c now
  | remove c now => exact releaseConnection_config _ c now
  | sweep now => rfl
  | finish reports =>
    show (poolEnd p reports).1.config = p.config
    unfold poolEnd
    split <;> rfl

/-- `getConnection` either leaves `allConnections` alone or, exactly when
the capacity guard `connectionLimit = 0 ∨ |allConnections| < connectionLimit`
holds with both idle buckets empty, appends one fresh connection. -/
theorem getConnection_all_cases (q : Pool) (w : Nat) :
    (getConnection q w).1.allConnections = q.allConnections ∨
    ((q.config.connectionLimit = 0 ∨
        q.allConnections.length < q.config.connectionLimit) ∧
      (getConnection q w).1.allConnections =
        q.allConnections ++ [⟨q.nextId, true, 0⟩]) := by
  unfold getConnection
  repeat' split
  all_goals simp_all

/-- One step preserves the capacity bound. -/
theorem stepPool_all_le (p : Pool) (op : Op)
    (hlim : p.config.connectionLimit ≠ 0)
    (hb : p.allConnections.length ≤ p.config.connectionLimit) :
    (stepPool p op).allConnections.length ≤ p.config.connectionLimit := by
  cases op with
  | get w =>
    rcases getConnection_all_cases p w with h | ⟨hg, h⟩
    · show (getConnection p w).1.allConnections.length ≤ _
      rw [h]; exact hb
    · show (getConnection p w).1.allConnections.length ≤ _
      rw [h]
      rcases hg with h0 | hlt
      · exact absurd h0 hlim
      · simpa using hlt
  | release c now =>
    show (releaseConnection p c now).1.allConnections.length ≤ _
    rw [releaseConnection_all]; exact hb
  | remove c now =>
    show (removeConnection p c now).1.allConnections.length ≤ _
    unfold removeConnection
    rw [releaseConnection_all]
    exact le_trans (spliceConnection_length_le _ _) hb
  | sweep now => exact hb
  | finish reports =>
    show (poolEnd p reports).1.allConnections.length ≤ _
    rw [poolEnd_all]; exact hb

/-- Any operation sequence preserves the capacity bound. -/
theorem runPool_all_le (ops : List Op) (p : Pool)
    (hlim : p.config.connectionLimit ≠ 0)
    (hb : p.allConnections.length ≤ p.config.connectionLimit) :
    (runPool p ops).allConnections.length ≤ p.config.connectionLimit := by
  induction ops generalizing p with
  | nil => exact hb
  | cons op rest ih =>
    have hcfg := stepPool_config p op
    have h2 : (stepPool p op).allConnections.length ≤
        (stepPool p op).config.connectionLimit := by
      rw [hcfg]; exact stepPool_all_le p op hlim hb
    have h3 := ih (stepPool p op) (by rw [hcfg]; exact hlim) h2
    rw [hcfg] at h3
    simpa [runPool, List.foldl_cons] using h3

/-- C4: with a non-zero `connectionLimit`, every state reachable by pool
operations from a state within the bound satisfies
`|allConnections| ≤ connectionLimit`; `getConnection` grows
`allConnections` (by one) only under the guard
`connectionLimit = 0 ∨ |allConnections| < connectionLimit`, and no other
operation grows `allConnections`. -/
theorem connectionLimit_invariant (p : Pool) (ops : List Op)
    (hlim : p.config.connectionLimit ≠ 0)
    (hb : p.allConnections.length ≤ p.config.connectionLimit) :
    (runPool p ops).allConnections.length ≤ p.config.connectionLimit ∧
    (∀ (q : Pool) (w : Nat),
      (getConnection q w).1.allConnections ≠ q.allConnections →
      (q.config.connectionLimit = 0 ∨
        q.allConnections.length < q.config.connectionLimit) ∧
      (getConnection q w).1.allConnections =
        q.allConnections ++ [⟨q.nextId, true, 0⟩]) ∧
    (∀ (q : Pool) (c : Conn) (now : Nat),
      (releaseConnection q c now).1.allConnections = q.allConnections) ∧
    (∀ (q : Pool) (c : Conn) (now : Nat),
      (removeConnection q c now).1.allConnections.length ≤
        q.allConnections.length) ∧
    (∀ (q : Pool) (now : Nat),
      (closeIdleConnections q now).1.allConnections = q.allConnections) ∧
    (∀ (q : Pool) (reports : List (Option Nat)),
      (poolEnd q reports).1.allConnections = q.allConnections) := by
  refine ⟨runPool_all_le ops p hlim hb, ?_, ?_, ?_, ?_, ?_⟩
  · intro q w hne
    rcases getConnection_all_cases q w with h | h
    · exact absurd h hne
    · exact h
  · exact releaseConnection_all
  · intro q c now
    unfold removeConnection
    rw [releaseConnection_all]
    exact spliceConnection_length_le _ _
  · intro q now; rfl
  · exact poolEnd_all

/-- Witness for `connectionLimit_invariant`: a fresh pool with
`connectionLimit = 2` run through four acquisition attempts. -/
def cfgW4 : PoolCfg := ⟨2, 2, 0, true, 300⟩

theorem connectionLimit_invariant_witness :
    (Pool.init cfgW4).config.connectionLimit ≠ 0 ∧
    (Pool.init cfgW4).allConnections.length ≤
      (Pool.init cfgW4).config.connectionLimit ∧
    ((runPool (Pool.init cfgW4)
        [Op.get 0, Op.get 1, Op.get 2, Op.get 3]).allConnections.length ≤
      (Pool.init cfgW4).config.connectionLimit ∧
    (∀ (q : Pool) (w : Nat),
      (getConnection q w).1.allConnections ≠ q.allConnections →
      (q.config.connectionLimit = 0 ∨
        q.allConnections.length < q.config.connectionLimit) ∧
      (getConnection q w).1.allConnections =
        q.allConnections ++ [⟨q.nextId, true, 0⟩]) ∧
    (∀ (q : Pool) (c : Conn) (now : Nat),
      (releaseConnection q c now).1.allConnections = q.allConnections) ∧
    (∀ (q : Pool) (c : Conn) (now : Nat),
      (removeConnection q c now).1.allConnections.length ≤
        q.allConnections.length) ∧
    (∀ (q : Pool) (now : Nat),
      (closeIdleConnections q now).1.allConnections = q.allConnections) ∧
    (∀ (q : Pool) (reports : List (Option Nat)),
      (poolEnd q reports).1.allConnections = q.allConnections)) :=
  ⟨by decide, by decide,
    connectionLimit_invariant (Pool.init cfgW4)
      [Op.get 0, Op.get 1, Op.get 2, Op.get 3] (by decide) (by decide)⟩

/-- C9: `PoolConfig` construction defaults — `waitForConnections = true`,
`connectionLimit = 10`, `queueLimit = 0` when unspecified;
`minConnections = min(connectionLimit, provided ?? connectionLimit)`, so
`minConnections ≤ connectionLimit` always; and
`idleTimeout = max(15, provided ?? 300)` seconds. -/
theorem poolConfig_defaults (o : PoolOptions) :
    (PoolConfigMake o).waitForConnections = o.waitForConnections.getD true ∧
    (PoolConfigMake o).connectionLimit = o.connectionLimit.getD 10 ∧
    (PoolConfigMake o).queueLimit = o.queueLimit.getD 0 ∧
    (PoolConfigMake o).minConnections =
      min (o.connectionLimit.getD 10)
        (o.minConnections.getD (o.connectionLimit.getD 10)) ∧
    (PoolConfigMake o).minConnections ≤ (PoolConfigMake o).connectionLimit ∧
    (PoolConfigMake o).idleTimeout = max 15 (o.idleTimeout.getD 300) := by
  obtain ⟨wf, cl, ql, mc, it⟩ := o
  cases wf <;> cases cl <;> cases ql <;> cases mc <;> cases it <;>
    simp [PoolConfigMake, Option.getD] <;> omega

/-- C5 evidence: the pool's own eviction sweep relies on
`extraConnections` being sorted ascending by `lastReleased` ("First will
always be oldest", part_000 line 229), yet a forced removal out of the
middle of the extra bucket leaves the bucket rotated and unsorted. From a
fresh pool (`connectionLimit = 3`, `minConnections = 0`): create three
connections, release them at times 1000, 2000, 3000 (extra bucket sorted),
then `_removeConnection` the middle one — the extra bucket becomes
`[{id 2, released 3000}, {id 0, released 1000}]`, which is not sorted. -/
def cfgC5 : PoolCfg := ⟨3, 0, 0, true, 300⟩

def opsC5 : List Op :=
  [Op.get 1, Op.get 2, Op.get 3,
   Op.release ⟨0, true, 0⟩ 1000,
   Op.release ⟨1, true, 0⟩ 2000,
   Op.release ⟨2, true, 0⟩ 3000,
   Op.remove ⟨1, false, 2000⟩ 4000]

theorem extraConnections_sorted_violated :
    sortedByRelease
        (runPool (Pool.init cfgC5) (opsC5.take 6)).extraConnections = true ∧
    (runPool (Pool.init cfgC5) opsC5).extraConnections =
      [⟨2, true, 3000⟩, ⟨0, true, 1000⟩] ∧
    sortedByRelease (runPool (Pool.init cfgC5) opsC5).extraConnections =
      false ∧
    spliceConnection
        [⟨0, true, 1000⟩, ⟨1, true, 2000⟩, ⟨2, true, 3000⟩] 1 =
      [⟨2, true, 3000⟩, ⟨0, true, 1000⟩] := by
  refine ⟨?_, ?_, ?_, ?_⟩ <;> decide

/-- C8 evidence: `_removeConnection` on a connection absent from every
bucket does not leave the buckets in their original order — the rotation
loop of `spliceConnection` performs `len - 1` net rotations, so every
bucket of length ≥ 2 ends up rotated by one — although the
waiter-notification logic still runs (the oldest waiter is re-dispatched
through a fresh acquire). Concretely: buckets holding `[c0, c1]`, one
queued waiter `9`, and a removal of the absent connection `3`. -/
def poolC8 : Pool :=
  { config := ⟨10, 0, 0, true, 300⟩
    allConnections := [⟨0, true, 0⟩, ⟨1, true, 0⟩]
    freeConnections := [⟨0, true, 0⟩, ⟨1, true, 0⟩]
    extraConnections := []
    connectionQueue := [9]
    closed := false
    nextId := 2 }

theorem removeConnection_absent_rotates :
    (poolC8.allConnections.all (fun c => c.id ≠ 3) = true ∧
     poolC8.freeConnections.all (fun c => c.id ≠ 3) = true ∧
     poolC8.extraConnections.all (fun c => c.id ≠ 3) = true) ∧
    (removeConnection poolC8 ⟨3, false, 0⟩ 50).1.allConnections =
      [⟨1, true, 0⟩, ⟨0, true, 0⟩] ∧
    (removeConnection poolC8 ⟨3, false, 0⟩ 50).1.freeConnections =
      [⟨1, true, 0⟩, ⟨0, true, 0⟩] ∧
    (removeConnection poolC8 ⟨3, false, 0⟩ 50).1.allConnections ≠
      poolC8.allConnections ∧
    (removeConnection poolC8 ⟨3, false, 0⟩ 50).2 = .redispatch 9 ∧
    (removeConnection poolC8 ⟨3, false, 0⟩ 50).1.connectionQueue = [] := by
  refine ⟨⟨?_, ?_, ?_⟩, ?_, ?_, ?_, ?_, ?_⟩ <;> decide
